import Mathlib

/-!
Verification development for the `chicago-web` repository.

The algorithmic core of the repository is embedded shallowly over exact
rationals (`ℚ` stands in for Python floats; all operations involved are
comparisons, `min`/`max`, field arithmetic and rounding, so the algebraic
structure of the code is preserved exactly) and integers (`ℤ` stands in for
timestamps, measured in seconds since the epoch; Python's `datetime`
arithmetic at the granularities used — days, hours, minutes, seconds — is
exactly integer-second arithmetic).

Randomness is modelled by oracle streams: `random.random()` draws are the
fractional part of an arbitrary rational oracle value (hence ranging over
exactly `[0, 1)`), `random.randint(a, b)` draws are `a + r % (b - a + 1)`
for an arbitrary natural oracle value `r` (hence ranging over exactly
`[a, b]` when `a ≤ b`, and failing like Python when `a > b`), and
`random.choice(l)` picks the index `j % l.length` for an arbitrary natural
oracle value `j` (failing like Python when the list is empty).

Fallible Python code (calls that can raise) is embedded in `Option`, with
`none` standing for a raised exception.
-/

namespace ChicagoWeb

/-- `min` over a list, folding left exactly like Python's builtin `min`
iterates; the junk value `0` is returned on `[]` (where Python raises, a
case excluded by every theorem below). -/
def listMin : List ℚ → ℚ
  | [] => 0
  | x :: xs => xs.foldl min x

/-- `max` over a list, folding left exactly like Python's builtin `max`
iterates; junk value `0` on `[]`. -/
def listMax : List ℚ → ℚ
  | [] => 0
  | x :: xs => xs.foldl max x

/-- Model of `random.random()`: the draw is the fractional part of an
arbitrary oracle rational, so it ranges over exactly `[0, 1)`. -/
def pyRandom (u : ℚ) : ℚ := Int.fract u

/-- Model of `random.uniform(a, b)`, which CPython computes as
`a + (b - a) * random()`. -/
def pyUniform (a b u : ℚ) : ℚ := a + (b - a) * pyRandom u

/-- The value of `random.randint(a, b)` for oracle draw `r`, meaningful when
`a ≤ b`: `a + r % (b - a + 1)` ranges over exactly `[a, b]`. -/
def pyRandintT (a b : ℤ) (r : ℕ) : ℤ := a + (r : ℤ) % (b - a + 1)

/-- Model of `random.randint(a, b)`: an arbitrary value in `[a, b]`;
`none` models the `ValueError` Python raises when the range is empty
(`a > b`). -/
def pyRandint (a b : ℤ) (r : ℕ) : Option ℤ :=
  if a ≤ b then some (pyRandintT a b r) else none

/-- Model of `random.choice(l)`: an arbitrary element of `l`, selected by
the oracle index `j % l.length`; `none` models the `IndexError` Python
raises on an empty sequence. -/
def pyChoice {α : Type} (l : List α) (j : ℕ) : Option α :=
  l.get? (j % l.length)

/-- The edge list traversed by `_point_in_polygon` (src/data.py:107-117):
the pairs `(polygon[i-1], polygon[i % n])` for `i = 1, …, n`, i.e. each
vertex paired with its cyclic successor. -/
def pipEdges (polygon : List (ℚ × ℚ)) : List ((ℚ × ℚ) × (ℚ × ℚ)) :=
  match polygon with
  | [] => []
  | p :: ps => (p :: ps).zip (ps ++ [p])

/-- One iteration of the edge loop of `_point_in_polygon`
(src/data.py:108-117).  The guards are the nested `if`s of the source
(`lon > min(p1_lon, p2_lon)`, `lon <= max(p1_lon, p2_lon)`,
`lat <= max(p1_lat, p2_lat)`); when they pass, the source assigns
`xinters` only under `p1_lon != p2_lon`, but the guards force
`p1_lon ≠ p2_lon`, so this extraction computes `xinters` unconditionally
(the instrumented `pipStepChecked` below models the source's assignment
discipline exactly, and `point_in_polygon_checked_eq` proves the two
agree). -/
def pipStep (lat lon : ℚ) (inside : Bool) (e : (ℚ × ℚ) × (ℚ × ℚ)) : Bool :=
  let p1lat := e.1.1
  let p1lon := e.1.2
  let p2lat := e.2.1
  let p2lon := e.2.2
  if min p1lon p2lon < lon ∧ lon ≤ max p1lon p2lon ∧ lat ≤ max p1lat p2lat then
    let xinters := (lon - p1lon) * (p2lat - p1lat) / (p2lon - p1lon) + p1lat
    if p1lat = p2lat ∨ lat ≤ xinters then !inside else inside
  else inside

/-- `_point_in_polygon` (src/data.py:101-119): ray-casting membership test,
folding `pipStep` over the cyclic edge list starting from `inside = False`. -/
def point_in_polygon (point : ℚ × ℚ) (polygon : List (ℚ × ℚ)) : Bool :=
  (pipEdges polygon).foldl (fun inside e => pipStep point.1 point.2 inside e) false

/-- Instrumented loop iteration of `_point_in_polygon`, faithful to the
source's evaluation order: the state carries `xinters` as `Option ℚ`
(`none` = not yet assigned), the division is performed only under the
source's `p1_lon != p2_lon` test and yields `none` if its divisor were
zero (modelling `ZeroDivisionError`), and reading `xinters` while
unassigned yields `none` (modelling `UnboundLocalError`).  Note the
source's `or` short-circuits: when `p1_lat == p2_lat` the variable
`xinters` is not read. -/
def pipStepChecked (lat lon : ℚ) (inside : Bool) (xo : Option ℚ)
    (e : (ℚ × ℚ) × (ℚ × ℚ)) : Option (Bool × Option ℚ) :=
  let p1lat := e.1.1
  let p1lon := e.1.2
  let p2lat := e.2.1
  let p2lon := e.2.2
  if min p1lon p2lon < lon ∧ lon ≤ max p1lon p2lon ∧ lat ≤ max p1lat p2lat then
    if p1lon ≠ p2lon then
      if p2lon - p1lon = 0 then none
      else
        let x := (lon - p1lon) * (p2lat - p1lat) / (p2lon - p1lon) + p1lat
        some (if p1lat = p2lat ∨ lat ≤ x then !inside else inside, some x)
    else
      if p1lat = p2lat then some (!inside, xo)
      else
        match xo with
        | none => none
        | some x => some (if lat ≤ x then !inside else inside, xo)
  else some (inside, xo)

/-- The instrumented edge loop: threads `(inside, xinters)` through
`pipStepChecked`, aborting with `none` on any modelled runtime error. -/
def pipLoopChecked (lat lon : ℚ) :
    Bool → Option ℚ → List ((ℚ × ℚ) × (ℚ × ℚ)) → Option Bool
  | inside, _, [] => some inside
  | inside, xo, e :: es =>
    match pipStepChecked lat lon inside xo e with
    | none => none
    | some s => pipLoopChecked lat lon s.1 s.2 es

/-- `_point_in_polygon`, instrumented for safety: `none` models any raised
exception (`IndexError` on `polygon[0]` for an empty polygon,
`ZeroDivisionError`, or `UnboundLocalError` on an unassigned `xinters`). -/
def point_in_polygon_checked (point : ℚ × ℚ) (polygon : List (ℚ × ℚ)) :
    Option Bool :=
  if polygon.isEmpty then none
  else pipLoopChecked point.1 point.2 false none (pipEdges polygon)

/-- Variant of `pipStep` with the parity toggle contributed by a horizontal
edge (equal latitude at both endpoints) deleted, and everything else
unchanged — the modification quantified over by the claim that horizontal
edges never contribute a crossing. -/
def pipStepDropHorizontal (lat lon : ℚ) (inside : Bool)
    (e : (ℚ × ℚ) × (ℚ × ℚ)) : Bool :=
  let p1lat := e.1.1
  let p1lon := e.1.2
  let p2lat := e.2.1
  let p2lon := e.2.2
  if min p1lon p2lon < lon ∧ lon ≤ max p1lon p2lon ∧ lat ≤ max p1lat p2lat then
    let xinters := (lon - p1lon) * (p2lat - p1lat) / (p2lon - p1lon) + p1lat
    if p1lat = p2lat then inside
    else if lat ≤ xinters then !inside else inside
  else inside

/-- `_point_in_polygon` with horizontal-edge toggles deleted. -/
def point_in_polygon_drop_horizontal (point : ℚ × ℚ)
    (polygon : List (ℚ × ℚ)) : Bool :=
  (pipEdges polygon).foldl
    (fun inside e => pipStepDropHorizontal point.1 point.2 inside e) false

/-- Variant of `pipStep` that skips outright every edge whose two endpoints
have equal longitude. -/
def pipStepSkipVertical (lat lon : ℚ) (inside : Bool)
    (e : (ℚ × ℚ) × (ℚ × ℚ)) : Bool :=
  if e.1.2 = e.2.2 then inside else pipStep lat lon inside e

/-- `_point_in_polygon` with equal-longitude edges skipped outright. -/
def point_in_polygon_skip_vertical (point : ℚ × ℚ)
    (polygon : List (ℚ × ℚ)) : Bool :=
  (pipEdges polygon).foldl
    (fun inside e => pipStepSkipVertical point.1 point.2 inside e) false

/-- The `k`-th candidate drawn by `_generate_point_in_bounds`
(src/data.py:129-131): `random.uniform` over the bounding box of the
vertices, fed by the per-attempt oracle `us`. -/
def candidate (bounds : List (ℚ × ℚ)) (us : ℕ → ℚ × ℚ) (k : ℕ) : ℚ × ℚ :=
  (pyUniform (listMin (bounds.map Prod.fst)) (listMax (bounds.map Prod.fst)) (us k).1,
   pyUniform (listMin (bounds.map Prod.snd)) (listMax (bounds.map Prod.snd)) (us k).2)

/-- The retry loop of `_generate_point_in_bounds` (src/data.py:129-134):
starting at attempt `k` with the given fuel, return the first candidate
that passes `_point_in_polygon`, or `none` when the fuel runs out. -/
def sampleAttempts (bounds : List (ℚ × ℚ)) (us : ℕ → ℚ × ℚ) :
    ℕ → ℕ → Option (ℚ × ℚ)
  | _, 0 => none
  | k, fuel + 1 =>
    if point_in_polygon (candidate bounds us k) bounds then
      some (candidate bounds us k)
    else sampleAttempts bounds us (k + 1) fuel

/-- The fallback of `_generate_point_in_bounds` (src/data.py:136): the
arithmetic centroid of the vertices, `(sum(lats)/len(lats), sum(lons)/len(lons))`. -/
def centroid (bounds : List (ℚ × ℚ)) : ℚ × ℚ :=
  ((bounds.map Prod.fst).sum / ((bounds.map Prod.fst).length : ℚ),
   (bounds.map Prod.snd).sum / ((bounds.map Prod.snd).length : ℚ))

/-- `_generate_point_in_bounds` (src/data.py:122-136): 100 bounded retries,
then the centroid fallback.  `none` models the `ValueError` Python's
`min()` raises on an empty vertex list — outside the spec's Polygon
domain, which demands at least 3 vertices. -/
def generate_point_in_bounds (us : ℕ → ℚ × ℚ) (bounds : List (ℚ × ℚ)) :
    Option (ℚ × ℚ) :=
  if bounds.isEmpty then none
  else some ((sampleAttempts bounds us 0 100).getD (centroid bounds))

/-- The proleptic-Gregorian calendar year of a day count relative to
1970-01-01 (Python's `datetime` calendar; standard civil-from-days
conversion). -/
def yearOfDays (z0 : ℤ) : ℤ :=
  let z := z0 + 719468
  let era := Int.fdiv z 146097
  let doe := z - era * 146097
  let yoe := Int.fdiv (doe - Int.fdiv doe 1460 + Int.fdiv doe 36524 - Int.fdiv doe 146096) 365
  let y := yoe + era * 400
  let doy := doe - (365 * yoe + Int.fdiv yoe 4 - Int.fdiv yoe 100)
  let mp := Int.fdiv (5 * doy + 2) 153
  if mp < 10 then y else y + 1

/-- The `.year` of a `datetime` modelled as seconds relative to the epoch
(floor-division into days, then civil-from-days). -/
def yearOf (t : ℤ) : ℤ := yearOfDays (Int.fdiv t 86400)

/-- `CRIME_TYPES_AREQUIPA` (src/data.py:20-27), as the ordered association
list underlying the Python dict. -/
def CRIME_TYPES_AREQUIPA : List (String × List String) :=
  [("ROBO", ["Robo con violencia", "Robo de vehículo", "Robo a transeúnte"]),
   ("ASALTO", ["Asalto y lesiones", "Agresión física", "Riña callejera"]),
   ("HURTO", ["Hurto simple", "Hurto de celular", "Carterismo"]),
   ("VANDALISMO", ["Daño a propiedad", "Grafiti", "Destrucción de bienes"]),
   ("VIOLENCIA FAMILIAR", ["Violencia doméstica", "Maltrato familiar"]),
   ("ESTAFA", ["Fraude", "Estafa telefónica", "Clonación de tarjetas"])]

/-- `LOCATIONS_AREQUIPA` (src/data.py:29-32). -/
def LOCATIONS_AREQUIPA : List String :=
  ["CALLE", "AVENIDA", "PARQUE", "PLAZA", "TIENDA", "RESTAURANTE",
   "RESIDENCIA", "BANCO", "MERCADO", "TRANSPORTE PÚBLICO", "ESTACIONAMIENTO"]

/-- Python `dict.get(k, dflt)` over an association list. -/
def dictGet (d : List (String × List String)) (k : String)
    (dflt : List String) : List String :=
  ((d.find? fun p => p.1 == k).map Prod.snd).getD dflt

/-- Zero-padded decimal rendering, Python's `f'{n:0wd}'` for nonnegative `n`. -/
def pad (w : ℕ) (n : ℤ) : String :=
  let s := toString n
  if s.length < w then String.mk (List.replicate (w - s.length) '0') ++ s else s

/-- An incident row as assembled by `generate_random_records_in_zone`
(src/data.py:167-190).  Timestamps (`date`, `updated_on`) are kept as
integer seconds rather than ISO strings — `datetime.isoformat` is
injective, so nothing is lost; `x_coordinate`/`y_coordinate`/`fbi_code`
are always `None` in the source and typed accordingly. -/
structure Record where
  id : String
  case_number : String
  date : ℤ
  block : String
  iucr : String
  primary_type : String
  description : String
  location_description : String
  arrest : Bool
  domestic : Bool
  beat : String
  district : String
  ward : String
  community_area : String
  fbi_code : Option String
  year : ℤ
  updated_on : ℤ
  x_coordinate : Option ℚ
  y_coordinate : Option ℚ
  latitude : Option ℚ
  longitude : Option ℚ
  location : String
deriving DecidableEq, Inhabited

/-- Oracle streams feeding every `random.*` call that record `i` of a
generation batch performs, plus `time.time()*1000` (field `tms`).  One
stream per textual call site in the source. -/
structure GenOracle where
  us : ℕ → ℕ → ℚ × ℚ
  tms : ℕ → ℤ
  ci : ℕ → ℕ
  di : ℕ → ℕ
  da : ℕ → ℕ
  ha : ℕ → ℕ
  ma : ℕ → ℕ
  blkw : ℕ → ℕ
  blkn : ℕ → ℕ
  iucr : ℕ → ℕ
  locd : ℕ → ℕ
  ar : ℕ → ℚ
  dr : ℕ → ℚ
  beat : ℕ → ℕ
  dist : ℕ → ℕ
  ward : ℕ → ℕ
  carea : ℕ → ℕ

/-- The first group of fallible draws of the loop body of
`generate_random_records_in_zone` (src/data.py:153-171): the sampled
point, the category, the sub-description, the three timestamp draws, and
the block word. -/
structure DrawsA where
  pt : ℚ × ℚ
  primary : String
  dsc : String
  daysAgo : ℤ
  hoursAgo : ℤ
  minutesAgo : ℤ
  blockWord : String
deriving DecidableEq

/-- The second group of fallible draws of the loop body of
`generate_random_records_in_zone` (src/data.py:171-181): the remaining
`randint`/`choice` field draws, in source order. -/
structure DrawsB where
  blockNum : ℤ
  iucrNum : ℤ
  locDesc : String
  beatNum : ℤ
  distNum : ℤ
  wardNum : ℤ
  careaNum : ℤ
deriving DecidableEq

/-- Performs the draws of `DrawsA` for record `i`, in source order,
propagating any raised exception as `none`. -/
def genRowDrawsA (zone_bounds : List (ℚ × ℚ)) (cts : List String)
    (days_back : ℤ) (o : GenOracle) (i : ℕ) : Option DrawsA :=
  (generate_point_in_bounds (o.us i) zone_bounds).bind fun pt =>
  (pyChoice cts (o.ci i)).bind fun primary =>
  (pyChoice (dictGet CRIME_TYPES_AREQUIPA primary ["Incidente"]) (o.di i)).bind fun dsc =>
  (pyRandint 0 days_back (o.da i)).bind fun daysAgo =>
  (pyRandint 0 23 (o.ha i)).bind fun hoursAgo =>
  (pyRandint 0 59 (o.ma i)).bind fun minutesAgo =>
  (pyChoice ["AV", "CALLE", "JR"] (o.blkw i)).bind fun blockWord =>
  some ⟨pt, primary, dsc, daysAgo, hoursAgo, minutesAgo, blockWord⟩

/-- Performs the draws of `DrawsB` for record `i`, in source order,
propagating any raised exception as `none`.  All its ranges and lists are
nonempty constants, so it never actually fails (`genRowDrawsB_isSome`). -/
def genRowDrawsB (o : GenOracle) (i : ℕ) : Option DrawsB :=
  (pyRandint 100 999 (o.blkn i)).bind fun blockNum =>
  (pyRandint 1000 9999 (o.iucr i)).bind fun iucrNum =>
  (pyChoice LOCATIONS_AREQUIPA (o.locd i)).bind fun locDesc =>
  (pyRandint 100 999 (o.beat i)).bind fun beatNum =>
  (pyRandint 1 10 (o.dist i)).bind fun distNum =>
  (pyRandint 1 29 (o.ward i)).bind fun wardNum =>
  (pyRandint 1 77 (o.carea i)).bind fun careaNum =>
  some ⟨blockNum, iucrNum, locDesc, beatNum, distNum, wardNum, careaNum⟩

/-- The body of the `for i in range(n)` loop of
`generate_random_records_in_zone` (src/data.py:153-191): performs the
fallible draws, then assembles record `i` exactly as the source's row
dict does. -/
def genRow (zone_bounds : List (ℚ × ℚ)) (cts : List String) (days_back : ℤ)
    (now : ℤ) (o : GenOracle) (i : ℕ) : Option Record :=
  (genRowDrawsA zone_bounds cts days_back o i).bind fun a =>
  (genRowDrawsB o i).bind fun b =>
  let record_date := now - (a.daysAgo * 86400 + a.hoursAgo * 3600 + a.minutesAgo * 60)
  let primary := a.primary
  let tms := o.tms i
  let yr := yearOf record_date
  let idx6 := pad 6 (i : ℤ)
  let blockWord := a.blockWord
  let blockNum := b.blockNum
  let lat := a.pt.1
  let lon := a.pt.2
  some {
    id := s!"ARQ-{tms}-{i}"
    case_number := s!"AQP{yr}{idx6}"
    date := record_date
    block := s!"{blockWord} {blockNum}"
    iucr := toString b.iucrNum
    primary_type := primary
    description := a.dsc
    location_description := b.locDesc
    arrest := decide (pyRandom (o.ar i) < 15/100)
    domestic := decide (pyRandom (o.dr i) <
      (if primary = "VIOLENCIA FAMILIAR" then 25/100 else 5/100))
    beat := toString b.beatNum
    district := pad 2 b.distNum
    ward := toString b.wardNum
    community_area := toString b.careaNum
    fbi_code := none
    year := yr
    updated_on := now
    x_coordinate := none
    y_coordinate := none
    latitude := some lat
    longitude := some lon
    location := s!"({lat}, {lon})" }

/-- Effectful map over a list in the `Option` monad (the shape of the
generator's `for` loop accumulating `rows`): the first raised exception
aborts the whole run. -/
def mapOption {α β : Type} (f : α → Option β) : List α → Option (List β)
  | [] => some []
  | a :: as => (f a).bind fun b => (mapOption f as).bind fun bs => some (b :: bs)

/-- `generate_random_records_in_zone` (src/data.py:139-197): `n` synthetic
incident records for a zone.  The trailing `_records_to_dataframe` /
session-store steps are presentation and storage concerns outside the
record-assembly contract modelled here; the record list itself is the
function's information content. -/
def generate_random_records_in_zone (n : ℕ) (zone_bounds : List (ℚ × ℚ))
    (crime_types : Option (List String)) (days_back : ℤ) (now : ℤ)
    (o : GenOracle) : Option (List Record) :=
  let cts := match crime_types with
    | none => CRIME_TYPES_AREQUIPA.map Prod.fst
    | some l => l
  mapOption (genRow zone_bounds cts days_back now o) (List.range n)

/-- Round-half-to-even at integer precision (the rounding used by
pandas/numpy `.round`). -/
def roundHalfEven (x : ℚ) : ℤ :=
  let f := ⌊x⌋
  let frac := x - (f : ℚ)
  if frac < 1/2 then f
  else if 1/2 < frac then f + 1
  else if f % 2 = 0 then f else f + 1

/-- `.round(2)`: round-half-to-even at two decimal places. -/
def round2 (x : ℚ) : ℚ := (roundHalfEven (100 * x) : ℚ) / 100

/-- The `dropna(subset=['latitude', 'longitude'])` step of
`show_map_points_and_heat` (src/viz.py:32): keep exactly the rows whose
latitude AND longitude are both present, extracting the coordinate pair. -/
def validCoords (pts : List (Option ℚ × Option ℚ)) : List (ℚ × ℚ) :=
  pts.filterMap fun p =>
    match p with
    | (some a, some b) => some (a, b)
    | _ => none

/-- The `(lat_bin, lon_bin)` key of every surviving row
(src/viz.py:66-67). -/
def binKeys (pts : List (Option ℚ × Option ℚ)) : List (ℚ × ℚ) :=
  (validCoords pts).map fun p => (round2 p.1, round2 p.2)

/-- The hotspot aggregation of `show_map_points_and_heat`
(src/viz.py:64-74), applied to the latitude/longitude columns of the
incident set: group the valid rows by rounded coordinates, count each
bucket, and keep the buckets whose count strictly exceeds
`heat_threshold`.  The `if` mirrors the early `return` the source takes
when no row has valid coordinates (src/viz.py:33-35); display calls are
out of scope. -/
def find_hotspots (pts : List (Option ℚ × Option ℚ)) (heat_threshold : ℤ) :
    List ((ℚ × ℚ) × ℕ) :=
  if validCoords pts = [] then []
  else (binKeys pts).dedup.filterMap fun k =>
    if ((binKeys pts).count k : ℤ) > heat_threshold then
      some (k, (binKeys pts).count k)
    else none

/-- `_enforce_recent_date` (src/db_postgres.py:151-166): overwrite the
record's `date` with `utcnow - timedelta(hours=1, minutes=em, seconds=es)`
for fresh draws `em, es ∈ [0, 59]`, set `updated_on` to `utcnow`, and
recompute `year` from the new date. -/
def enforce_recent_date (now : ℤ) (emr esr : ℕ) (r : Record) : Record :=
  let extra_minutes := pyRandintT 0 59 emr
  let extra_seconds := pyRandintT 0 59 esr
  let new_date := now - (3600 + extra_minutes * 60 + extra_seconds)
  { r with date := new_date, updated_on := now, year := yearOf new_date }

/-- The `for r in records: _enforce_recent_date(r)` pass of `insert_crimes`
(src/db_postgres.py:168-172), which runs on every batch before anything is
written to the database; the subsequent SQL upsert is I/O outside the
model.  The index argument threads each record's own random draws. -/
def insert_crimes_enforce (now : ℤ) (ems ess : ℕ → ℕ) :
    ℕ → List Record → List Record
  | _, [] => []
  | i, r :: rs =>
    enforce_recent_date now (ems i) (ess i) r ::
      insert_crimes_enforce now ems ess (i + 1) rs

/-- The unit square of the spec's end-to-end scenario. -/
def unitSquare : List (ℚ × ℚ) := [(0, 0), (0, 1), (1, 1), (1, 0)]

/-- A random stream whose every uniform draw is the box midpoint. -/
def usHalf : ℕ → ℚ × ℚ := fun _ => (1/2, 1/2)

/-- A concrete oracle: midpoint uniform draws, `hours_ago` drawing 23 and
`minutes_ago` drawing 59, everything else drawing 0. -/
def cexOracle : GenOracle where
  us := fun _ => usHalf
  tms := fun _ => 0
  ci := fun _ => 0
  di := fun _ => 0
  da := fun _ => 0
  ha := fun _ => 23
  ma := fun _ => 59
  blkw := fun _ => 0
  blkn := fun _ => 0
  iucr := fun _ => 0
  locd := fun _ => 0
  ar := fun _ => 0
  dr := fun _ => 0
  beat := fun _ => 0
  dist := fun _ => 0
  ward := fun _ => 0
  carea := fun _ => 0

/-- A concrete generated batch: one record in the unit square, generated at
epoch time with `days_back = 0` under `cexOracle`. -/
def demoBatch : List Record :=
  (generate_random_records_in_zone 1 unitSquare none 0 0 cexOracle).getD []

/-- The single record of `demoBatch`. -/
def demoRec : Record := demoBatch.headD default

/-- The record of `demoBatch`, written out field by field
(`demo_generate` proves the generator produces exactly this record). -/
def demoRecX : Record where
  id := "ARQ-0-0"
  case_number := "AQP1969000000"
  date := -86340
  block := "AV 100"
  iucr := "1000"
  primary_type := "ROBO"
  description := "Robo con violencia"
  location_description := "CALLE"
  arrest := true
  domestic := true
  beat := "100"
  district := "01"
  ward := "1"
  community_area := "1"
  fbi_code := none
  year := 1969
  updated_on := 0
  x_coordinate := none
  y_coordinate := none
  latitude := some (1/2)
  longitude := some (1/2)
  location := "(1/2, 1/2)"

/-- The predicate named by the spec's filtering clause, read literally: an
incident "lacking both coordinates" is one whose latitude and longitude
are both missing. -/
def lacksBoth (p : Option ℚ × Option ℚ) : Prop := p.1 = none ∧ p.2 = none

instance (p : Option ℚ × Option ℚ) : Decidable (lacksBoth p) := by
  unfold lacksBoth; infer_instance

/-- `Option.bind` on a `some` reduces. -/
theorem obind_some {α β : Type} (a : α) (f : α → Option β) :
    (some a).bind f = f a := rfl

/-- A left fold of `min` only shrinks the initial value. -/
theorem foldl_min_le_init : ∀ (xs : List ℚ) (a : ℚ), xs.foldl min a ≤ a
  | [], _ => le_refl _
  | y :: ys, a => le_trans (foldl_min_le_init ys (min a y)) (min_le_left a y)

/-- A left fold of `min` is below every list element. -/
theorem foldl_min_le_mem : ∀ (xs : List ℚ) (a y : ℚ), y ∈ xs → xs.foldl min a ≤ y := by
  intro xs
  induction xs with
  | nil => intro a y hy; cases hy
  | cons z zs ih =>
    intro a y hy
    rcases List.mem_cons.mp hy with h | h
    · subst h
      exact le_trans (foldl_min_le_init zs (min a y)) (min_le_right a y)
    · exact ih (min a z) y h

/-- A left fold of `max` only grows the initial value. -/
theorem le_foldl_max_init : ∀ (xs : List ℚ) (a : ℚ), a ≤ xs.foldl max a
  | [], _ => le_refl _
  | y :: ys, a => le_trans (le_max_left a y) (le_foldl_max_init ys (max a y))

/-- A left fold of `max` is above every list element. -/
theorem mem_le_foldl_max : ∀ (xs : List ℚ) (a y : ℚ), y ∈ xs → y ≤ xs.foldl max a := by
  intro xs
  induction xs with
  | nil => intro a y hy; cases hy
  | cons z zs ih =>
    intro a y hy
    rcases List.mem_cons.mp hy with h | h
    · subst h
      exact le_trans (le_max_right a y) (le_foldl_max_init zs (max a y))
    · exact ih (max a z) y h

/-- `listMin` is a lower bound of the list. -/
theorem listMin_le_mem {l : List ℚ} {y : ℚ} (hy : y ∈ l) : listMin l ≤ y := by
  cases l with
  | nil => cases hy
  | cons x xs =>
    rcases List.mem_cons.mp hy with h | h
    · subst h; exact foldl_min_le_init xs y
    · exact foldl_min_le_mem xs x y h

/-- `listMax` is an upper bound of the list. -/
theorem mem_le_listMax {l : List ℚ} {y : ℚ} (hy : y ∈ l) : y ≤ listMax l := by
  cases l with
  | nil => cases hy
  | cons x xs =>
    rcases List.mem_cons.mp hy with h | h
    · subst h; exact le_foldl_max_init xs y
    · exact mem_le_foldl_max xs x y h

/-- On a nonempty list the fold-min is below the fold-max. -/
theorem listMin_le_listMax {l : List ℚ} (h : l ≠ []) : listMin l ≤ listMax l := by
  cases l with
  | nil => exact absurd rfl h
  | cons x xs =>
    exact le_trans (listMin_le_mem (List.mem_cons_self x xs))
      (mem_le_listMax (List.mem_cons_self x xs))

/-- A `random.uniform(a, b)` draw lands in `[a, b]` whenever `a ≤ b`. -/
theorem pyUniform_mem {a b : ℚ} (u : ℚ) (h : a ≤ b) :
    a ≤ pyUniform a b u ∧ pyUniform a b u ≤ b := by
  unfold pyUniform pyRandom
  constructor
  · nlinarith [Int.fract_nonneg u, Int.fract_lt_one u]
  · nlinarith [Int.fract_nonneg u, Int.fract_lt_one u]

/-- A common lower bound of the elements bounds the sum from below. -/
theorem mul_length_le_sum :
    ∀ (l : List ℚ) (m : ℚ), (∀ y ∈ l, m ≤ y) → m * (l.length : ℚ) ≤ l.sum := by
  intro l
  induction l with
  | nil => intro m _; simp
  | cons x xs ih =>
    intro m h
    have h1 := ih m (fun y hy => h y (List.mem_cons_of_mem x hy))
    have h2 := h x (List.mem_cons_self x xs)
    have : ((x :: xs).length : ℚ) = (xs.length : ℚ) + 1 := by
      rw [List.length_cons]
      push_cast
      ring
    rw [this, List.sum_cons]
    nlinarith

/-- A common upper bound of the elements bounds the sum from above. -/
theorem sum_le_mul_length :
    ∀ (l : List ℚ) (m : ℚ), (∀ y ∈ l, y ≤ m) → l.sum ≤ m * (l.length : ℚ) := by
  intro l
  induction l with
  | nil => intro m _; simp
  | cons x xs ih =>
    intro m h
    have h1 := ih m (fun y hy => h y (List.mem_cons_of_mem x hy))
    have h2 := h x (List.mem_cons_self x xs)
    have : ((x :: xs).length : ℚ) = (xs.length : ℚ) + 1 := by
      rw [List.length_cons]
      push_cast
      ring
    rw [this, List.sum_cons]
    nlinarith

/-- The mean of a nonempty rational list lies between fold-min and fold-max. -/
theorem mean_mem_interval {l : List ℚ} (h : l ≠ []) :
    listMin l ≤ l.sum / (l.length : ℚ) ∧ l.sum / (l.length : ℚ) ≤ listMax l := by
  have hlen : 0 < (l.length : ℚ) := by
    have : 0 < l.length := List.length_pos.mpr h
    exact_mod_cast this
  constructor
  · rw [le_div_iff₀ hlen]
    exact mul_length_le_sum l (listMin l) (fun y hy => listMin_le_mem hy)
  · rw [div_le_iff₀ hlen]
    exact sum_le_mul_length l (listMax l) (fun y hy => mem_le_listMax hy)

/-- The centroid fallback lies in the bounding box of the vertices. -/
theorem centroid_mem_box {bounds : List (ℚ × ℚ)} (h : bounds ≠ []) :
    listMin (bounds.map Prod.fst) ≤ (centroid bounds).1 ∧
    (centroid bounds).1 ≤ listMax (bounds.map Prod.fst) ∧
    listMin (bounds.map Prod.snd) ≤ (centroid bounds).2 ∧
    (centroid bounds).2 ≤ listMax (bounds.map Prod.snd) := by
  have h1 : bounds.map Prod.fst ≠ [] := by
    simpa [List.map_eq_nil_iff] using h
  have h2 : bounds.map Prod.snd ≠ [] := by
    simpa [List.map_eq_nil_iff] using h
  obtain ⟨ha, hb⟩ := mean_mem_interval h1
  obtain ⟨hc, hd⟩ := mean_mem_interval h2
  exact ⟨ha, hb, hc, hd⟩

/-- Every uniform candidate lies in the bounding box of the vertices. -/
theorem candidate_mem_box {bounds : List (ℚ × ℚ)} (h : bounds ≠ [])
    (us : ℕ → ℚ × ℚ) (k : ℕ) :
    listMin (bounds.map Prod.fst) ≤ (candidate bounds us k).1 ∧
    (candidate bounds us k).1 ≤ listMax (bounds.map Prod.fst) ∧
    listMin (bounds.map Prod.snd) ≤ (candidate bounds us k).2 ∧
    (candidate bounds us k).2 ≤ listMax (bounds.map Prod.snd) := by
  have h1 : bounds.map Prod.fst ≠ [] := by
    simpa [List.map_eq_nil_iff] using h
  have h2 : bounds.map Prod.snd ≠ [] := by
    simpa [List.map_eq_nil_iff] using h
  obtain ⟨ha, hb⟩ := pyUniform_mem (us k).1 (listMin_le_listMax h1)
  obtain ⟨hc, hd⟩ := pyUniform_mem (us k).2 (listMin_le_listMax h2)
  exact ⟨ha, hb, hc, hd⟩

/-- An edge with equal longitudes at both endpoints fails the longitude
guards, so the loop body leaves `inside` untouched on it. -/
theorem pipStep_eq_of_eqLon (lat lon : ℚ) (inside : Bool)
    (e : (ℚ × ℚ) × (ℚ × ℚ)) (h : e.1.2 = e.2.2) :
    pipStep lat lon inside e = inside := by
  unfold pipStep
  rw [if_neg]
  rintro ⟨h1, h2, _⟩
  rw [h, min_self] at h1
  rw [h, max_self] at h2
  exact absurd (lt_of_lt_of_le h1 h2) (lt_irrefl _)

/-- Skipping equal-longitude edges agrees with the loop body pointwise. -/
theorem pipStepSkipVertical_eq (lat lon : ℚ) (inside : Bool)
    (e : (ℚ × ℚ) × (ℚ × ℚ)) :
    pipStepSkipVertical lat lon inside e = pipStep lat lon inside e := by
  unfold pipStepSkipVertical
  by_cases h : e.1.2 = e.2.2
  · rw [if_pos h, pipStep_eq_of_eqLon lat lon inside e h]
  · rw [if_neg h]

/-- The instrumented loop body never errors, and its `inside` component is
the one computed by the extracted loop body. -/
theorem pipStepChecked_some (lat lon : ℚ) (inside : Bool) (xo : Option ℚ)
    (e : (ℚ × ℚ) × (ℚ × ℚ)) :
    ∃ xo2, pipStepChecked lat lon inside xo e =
      some (pipStep lat lon inside e, xo2) := by
  by_cases hg : min e.1.2 e.2.2 < lon ∧ lon ≤ max e.1.2 e.2.2 ∧ lat ≤ max e.1.1 e.2.1
  · have hne : e.1.2 ≠ e.2.2 := by
      intro h
      obtain ⟨h1, h2, _⟩ := hg
      rw [h, min_self] at h1
      rw [h, max_self] at h2
      exact absurd (lt_of_lt_of_le h1 h2) (lt_irrefl _)
    have hdz : ¬ e.2.2 - e.1.2 = 0 := sub_ne_zero.mpr (Ne.symm hne)
    refine ⟨some ((lon - e.1.2) * (e.2.1 - e.1.1) / (e.2.2 - e.1.2) + e.1.1), ?_⟩
    unfold pipStepChecked pipStep
    rw [if_pos hg, if_pos hg, if_pos hne, if_neg hdz]
  · refine ⟨xo, ?_⟩
    unfold pipStepChecked pipStep
    rw [if_neg hg, if_neg hg]

set_option maxHeartbeats 1600000 in
/-- The instrumented edge loop never errors and computes the fold of the
extracted loop body. -/
theorem pipLoopChecked_eq (lat lon : ℚ) :
    ∀ (es : List ((ℚ × ℚ) × (ℚ × ℚ))) (inside : Bool) (xo : Option ℚ),
    pipLoopChecked lat lon inside xo es =
      some (es.foldl (fun i e => pipStep lat lon i e) inside) := by
  intro es
  induction es with
  | nil => intro inside xo; rfl
  | cons e es ih =>
    intro inside xo
    obtain ⟨xo2, hx⟩ := pipStepChecked_some lat lon inside xo e
    rw [pipLoopChecked, hx]
    exact ih (pipStep lat lon inside e) xo2

/-- C10: the point-in-polygon evaluation is total on every nonempty polygon
and candidate point — the instrumented evaluator (which faults on a
zero-divisor interpolation or on reading `xinters` before assignment)
always succeeds and agrees with the extracted predicate: the longitude
guards make equal-longitude edges unreachable at the division, and
`xinters` is read only in iterations that assigned it. -/
theorem point_in_polygon_never_raises (point : ℚ × ℚ)
    (polygon : List (ℚ × ℚ)) (h : polygon ≠ []) :
    point_in_polygon_checked point polygon =
      some (point_in_polygon point polygon) := by
  unfold point_in_polygon_checked point_in_polygon
  rw [if_neg (by simpa using h)]
  exact pipLoopChecked_eq point.1 point.2 (pipEdges polygon) false none

/-- Witness for `point_in_polygon_never_raises` at a concrete polygon. -/
theorem point_in_polygon_never_raises_witness :
    unitSquare ≠ [] ∧
    point_in_polygon_checked ((1 : ℚ)/2, 1/2) unitSquare =
      some (point_in_polygon ((1 : ℚ)/2, 1/2) unitSquare) :=
  ⟨by decide, point_in_polygon_never_raises ((1 : ℚ)/2, 1/2) unitSquare (by decide)⟩

set_option maxHeartbeats 4000000 in
/-- C2 counterexample: on the unit square, the membership test returns
`true` at the centre, but deleting the parity toggles contributed by
horizontal (equal-latitude) edges flips the answer to `false` — so
horizontal edges do contribute crossings in this implementation. -/
theorem horizontal_edge_toggles_matter :
    point_in_polygon ((1 : ℚ)/2, 1/2) unitSquare = true ∧
    point_in_polygon_drop_horizontal ((1 : ℚ)/2, 1/2) unitSquare = false := by
  constructor
  · with_unfolding_all decide
  · with_unfolding_all decide

/-- C2 (amended): it is the equal-longitude edges that never contribute a
crossing — skipping them outright never changes the result of the
membership test, for every polygon and candidate point. -/
theorem vertical_edges_noncontributing (point : ℚ × ℚ)
    (polygon : List (ℚ × ℚ)) :
    point_in_polygon_skip_vertical point polygon =
      point_in_polygon point polygon := by
  unfold point_in_polygon_skip_vertical point_in_polygon
  simp only [pipStepSkipVertical_eq]

/-- C1: every point the retry loop returns (for any starting attempt and
any fuel, in particular the source's 100) satisfies the ray-casting
membership predicate for the same polygon. -/
theorem sampler_loop_containment (bounds : List (ℚ × ℚ)) (us : ℕ → ℚ × ℚ)
    (k fuel : ℕ) (p : ℚ × ℚ) (_hpoly : 3 ≤ bounds.length)
    (h : sampleAttempts bounds us k fuel = some p) :
    point_in_polygon p bounds = true := by
  induction fuel generalizing k with
  | zero => exact absurd h (by simp [sampleAttempts])
  | succ n ih =>
    rw [sampleAttempts] at h
    by_cases hc : point_in_polygon (candidate bounds us k) bounds = true
    · rw [if_pos hc] at h
      injection h with h
      rw [← h]
      exact hc
    · rw [if_neg hc] at h
      exact ih (k + 1) h

set_option maxHeartbeats 4000000 in
/-- Witness for `sampler_loop_containment`: on the unit square the first
midpoint draw is returned by the loop and passes the predicate. -/
theorem sampler_loop_containment_witness :
    3 ≤ unitSquare.length ∧
    sampleAttempts unitSquare usHalf 0 100 = some ((1 : ℚ)/2, 1/2) ∧
    point_in_polygon ((1 : ℚ)/2, 1/2) unitSquare = true :=
  ⟨by decide, by with_unfolding_all decide,
    sampler_loop_containment unitSquare usHalf 0 100 ((1 : ℚ)/2, 1/2)
      (by decide) (by with_unfolding_all decide)⟩

/-- The retry loop is the first passing candidate among the attempts it has
fuel for. -/
theorem sampleAttempts_eq_find (bounds : List (ℚ × ℚ)) (us : ℕ → ℚ × ℚ) :
    ∀ (fuel k : ℕ),
    sampleAttempts bounds us k fuel =
      ((List.range' k fuel).find? fun j =>
        point_in_polygon (candidate bounds us j) bounds).map (candidate bounds us) := by
  intro fuel
  induction fuel with
  | zero => intro k; rfl
  | succ n ih =>
    intro k
    rw [sampleAttempts,
      show List.range' k (n + 1) = k :: List.range' (k + 1) n from rfl]
    by_cases hc : point_in_polygon (candidate bounds us k) bounds = true
    · rw [if_pos hc]
      simp [hc]
    · rw [if_neg hc]
      rw [ih (k + 1)]
      have hfind : (List.find? (fun j => point_in_polygon (candidate bounds us j) bounds)
          (k :: List.range' (k + 1) n)) =
          List.find? (fun j => point_in_polygon (candidate bounds us j) bounds)
            (List.range' (k + 1) n) := by
        simp [hc]
      rw [hfind]

/-- C3: for every polygon, the sampler consults exactly the first 100
candidates, returns the first of them that passes the membership test, and
falls back to the arithmetic centroid of the vertices when none passes.
(The embedding is structurally recursive on the retry budget and, given a
polygon, involves no partial operation — `point_in_polygon_never_raises` —
so the sampler always terminates and never raises.) -/
theorem sampler_first_passing_or_centroid (us : ℕ → ℚ × ℚ)
    (bounds : List (ℚ × ℚ)) (h : 3 ≤ bounds.length) :
    generate_point_in_bounds us bounds =
      some (Option.getD
        (Option.map (candidate bounds us)
          ((List.range 100).find? fun k =>
            point_in_polygon (candidate bounds us k) bounds))
        (centroid bounds)) := by
  have hne : ¬ bounds.isEmpty = true := by
    cases bounds with
    | nil => simp at h
    | cons x xs => simp
  rw [generate_point_in_bounds, if_neg hne, sampleAttempts_eq_find,
    List.range_eq_range']

/-- Witness for `sampler_first_passing_or_centroid` at the unit square. -/
theorem sampler_first_passing_or_centroid_witness :
    3 ≤ unitSquare.length ∧
    generate_point_in_bounds usHalf unitSquare =
      some (Option.getD
        (Option.map (candidate unitSquare usHalf)
          ((List.range 100).find? fun k =>
            point_in_polygon (candidate unitSquare usHalf k) unitSquare))
        (centroid unitSquare)) :=
  ⟨by decide, sampler_first_passing_or_centroid usHalf unitSquare (by decide)⟩

/-- A successful retry loop returns one of the uniform candidates. -/
theorem sampleAttempts_eq_some_candidate {bounds : List (ℚ × ℚ)}
    {us : ℕ → ℚ × ℚ} {k fuel : ℕ} {q : ℚ × ℚ}
    (h : sampleAttempts bounds us k fuel = some q) :
    ∃ j, q = candidate bounds us j := by
  rw [sampleAttempts_eq_find] at h
  obtain ⟨j, _, hj⟩ := Option.map_eq_some'.mp h
  exact ⟨j, hj.symm⟩

/-- C9: every point the sampler returns — found by the membership test or
produced by the centroid fallback — lies in the axis-aligned bounding box
of the polygon's vertices. -/
theorem sampler_bounding_box (us : ℕ → ℚ × ℚ) (bounds : List (ℚ × ℚ))
    (p : ℚ × ℚ) (hpoly : 3 ≤ bounds.length)
    (h : generate_point_in_bounds us bounds = some p) :
    listMin (bounds.map Prod.fst) ≤ p.1 ∧
    p.1 ≤ listMax (bounds.map Prod.fst) ∧
    listMin (bounds.map Prod.snd) ≤ p.2 ∧
    p.2 ≤ listMax (bounds.map Prod.snd) := by
  have hne : bounds ≠ [] := by
    cases bounds with
    | nil => simp at hpoly
    | cons x xs => simp
  have hne2 : ¬ bounds.isEmpty = true := by simpa using hne
  rw [generate_point_in_bounds, if_neg hne2] at h
  injection h with h
  cases hs : sampleAttempts bounds us 0 100 with
  | none =>
    rw [hs] at h
    simp only [Option.getD_none] at h
    rw [← h]
    exact centroid_mem_box hne
  | some q =>
    rw [hs] at h
    simp only [Option.getD_some] at h
    obtain ⟨j, hj⟩ := sampleAttempts_eq_some_candidate hs
    rw [← h, hj]
    exact candidate_mem_box hne us j

set_option maxHeartbeats 4000000 in
/-- Witness for `sampler_bounding_box` at the unit square. -/
theorem sampler_bounding_box_witness :
    3 ≤ unitSquare.length ∧
    generate_point_in_bounds usHalf unitSquare = some ((1 : ℚ)/2, 1/2) ∧
    (listMin (unitSquare.map Prod.fst) ≤ ((1 : ℚ)/2, (1 : ℚ)/2).1 ∧
     ((1 : ℚ)/2, (1 : ℚ)/2).1 ≤ listMax (unitSquare.map Prod.fst) ∧
     listMin (unitSquare.map Prod.snd) ≤ ((1 : ℚ)/2, (1 : ℚ)/2).2 ∧
     ((1 : ℚ)/2, (1 : ℚ)/2).2 ≤ listMax (unitSquare.map Prod.snd)) :=
  ⟨by decide, by with_unfolding_all decide,
    sampler_bounding_box usHalf unitSquare ((1 : ℚ)/2, 1/2)
      (by decide) (by with_unfolding_all decide)⟩

/-- A `random.randint(a, b)` draw value lands in `[a, b]` whenever `a ≤ b`. -/
theorem pyRandintT_mem {a b : ℤ} (r : ℕ) (h : a ≤ b) :
    a ≤ pyRandintT a b r ∧ pyRandintT a b r ≤ b := by
  unfold pyRandintT
  have hm : (0 : ℤ) < b - a + 1 := by omega
  have h1 : 0 ≤ (r : ℤ) % (b - a + 1) := Int.emod_nonneg _ (by omega)
  have h2 : (r : ℤ) % (b - a + 1) < b - a + 1 := Int.emod_lt_of_pos _ hm
  omega

/-- A successful `random.randint(a, b)` call returns a value in `[a, b]`. -/
theorem pyRandint_eq_some {a b v : ℤ} {r : ℕ}
    (h : pyRandint a b r = some v) : a ≤ v ∧ v ≤ b := by
  unfold pyRandint at h
  by_cases hab : a ≤ b
  · rw [if_pos hab] at h
    injection h with h
    rw [← h]
    exact pyRandintT_mem r hab
  · rw [if_neg hab] at h
    exact absurd h (by simp)

/-- `random.randint(a, b)` succeeds whenever `a ≤ b`. -/
theorem pyRandint_some {a b : ℤ} (r : ℕ) (h : a ≤ b) :
    pyRandint a b r = some (pyRandintT a b r) := by
  unfold pyRandint
  rw [if_pos h]

/-- `random.choice` succeeds on any nonempty sequence. -/
theorem pyChoice_some {α : Type} {l : List α} (j : ℕ) (h : l ≠ []) :
    ∃ v, pyChoice l j = some v := by
  unfold pyChoice
  have hlen : 0 < l.length := List.length_pos.mpr h
  exact ⟨_, List.get?_eq_get (Nat.mod_lt _ hlen)⟩

/-- Every description list reachable through `dict.get` with the
`['Incidente']` default is nonempty. -/
theorem dictGet_descriptions_ne_nil (k : String) :
    dictGet CRIME_TYPES_AREQUIPA k ["Incidente"] ≠ [] := by
  unfold dictGet
  cases hf : CRIME_TYPES_AREQUIPA.find? (fun p => p.1 == k) with
  | none => simp
  | some p =>
    have hp : p ∈ CRIME_TYPES_AREQUIPA := List.mem_of_find?_eq_some hf
    have hall : ∀ q ∈ CRIME_TYPES_AREQUIPA, q.2 ≠ [] := by decide
    simp [hall p hp]

/-- The first draw group succeeds on a nonempty polygon, a nonempty
category list and a nonnegative `days_back`. -/
theorem genRowDrawsA_some {zone_bounds : List (ℚ × ℚ)} {cts : List String}
    {days_back : ℤ} (o : GenOracle) (i : ℕ)
    (hb : ¬ zone_bounds.isEmpty = true) (hcts : cts ≠ []) (hdb : 0 ≤ days_back) :
    ∃ a : DrawsA, genRowDrawsA zone_bounds cts days_back o i = some a := by
  obtain ⟨pr, hpr⟩ := pyChoice_some (o.ci i) hcts
  obtain ⟨ds, hds⟩ := pyChoice_some (o.di i) (dictGet_descriptions_ne_nil pr)
  obtain ⟨bw, hbw⟩ := pyChoice_some (o.blkw i)
    (show (["AV", "CALLE", "JR"] : List String) ≠ [] by decide)
  have hgen : generate_point_in_bounds (o.us i) zone_bounds =
      some ((sampleAttempts zone_bounds (o.us i) 0 100).getD (centroid zone_bounds)) := by
    unfold generate_point_in_bounds
    rw [if_neg hb]
  have hsome : (genRowDrawsA zone_bounds cts days_back o i).isSome = true := by
    unfold genRowDrawsA
    rw [hgen, obind_some, hpr, obind_some, hds, obind_some,
      pyRandint_some (o.da i) hdb, obind_some,
      pyRandint_some (o.ha i) (show (0 : ℤ) ≤ 23 by decide), obind_some,
      pyRandint_some (o.ma i) (show (0 : ℤ) ≤ 59 by decide), obind_some,
      hbw, obind_some]
    rfl
  exact Option.isSome_iff_exists.mp hsome

/-- The second draw group always succeeds: all its ranges and lists are
nonempty constants. -/
theorem genRowDrawsB_some (o : GenOracle) (i : ℕ) :
    ∃ b : DrawsB, genRowDrawsB o i = some b := by
  obtain ⟨ld, hld⟩ := pyChoice_some (o.locd i)
    (show LOCATIONS_AREQUIPA ≠ [] by decide)
  have hsome : (genRowDrawsB o i).isSome = true := by
    unfold genRowDrawsB
    rw [pyRandint_some (o.blkn i) (show (100 : ℤ) ≤ 999 by decide), obind_some,
      pyRandint_some (o.iucr i) (show (1000 : ℤ) ≤ 9999 by decide), obind_some,
      hld, obind_some,
      pyRandint_some (o.beat i) (show (100 : ℤ) ≤ 999 by decide), obind_some,
      pyRandint_some (o.dist i) (show (1 : ℤ) ≤ 10 by decide), obind_some,
      pyRandint_some (o.ward i) (show (1 : ℤ) ≤ 29 by decide), obind_some,
      pyRandint_some (o.carea i) (show (1 : ℤ) ≤ 77 by decide), obind_some]
    rfl
  exact Option.isSome_iff_exists.mp hsome

/-- The loop body succeeds under the same hypotheses as the draws. -/
theorem genRow_some {zone_bounds : List (ℚ × ℚ)} {cts : List String}
    {days_back : ℤ} (now : ℤ) (o : GenOracle) (i : ℕ)
    (hb : ¬ zone_bounds.isEmpty = true) (hcts : cts ≠ []) (hdb : 0 ≤ days_back) :
    ∃ r, genRow zone_bounds cts days_back now o i = some r := by
  obtain ⟨a, ha⟩ := genRowDrawsA_some o i hb hcts hdb
  obtain ⟨b, hbb⟩ := genRowDrawsB_some o i
  have hsome : (genRow zone_bounds cts days_back now o i).isSome = true := by
    unfold genRow
    rw [ha, obind_some, hbb, obind_some]
    rfl
  exact Option.isSome_iff_exists.mp hsome

/-- If every element maps to a `some`, the effectful map returns a list of
the same length. -/
theorem mapOption_some_of_forall {α β : Type} (f : α → Option β) :
    ∀ l : List α, (∀ x ∈ l, ∃ y, f x = some y) →
    ∃ ys, mapOption f l = some ys ∧ ys.length = l.length := by
  intro l
  induction l with
  | nil => intro _; exact ⟨[], rfl, rfl⟩
  | cons x xs ih =>
    intro h
    obtain ⟨y, hy⟩ := h x (List.mem_cons_self x xs)
    obtain ⟨ys, hys, hlen⟩ := ih (fun z hz => h z (List.mem_cons_of_mem x hz))
    refine ⟨y :: ys, ?_, by simp [hlen]⟩
    unfold mapOption
    rw [hy, obind_some, hys, obind_some]

/-- Every element of a successful effectful map is the image of a source
element. -/
theorem mapOption_mem {α β : Type} (f : α → Option β) :
    ∀ (l : List α) (ys : List β), mapOption f l = some ys →
      ∀ y ∈ ys, ∃ x ∈ l, f x = some y := by
  intro l
  induction l with
  | nil =>
    intro ys h y hy
    have : ([] : List β) = ys := by
      have h2 : (some [] : Option (List β)) = some ys := h
      injection h2
    rw [← this] at hy
    cases hy
  | cons x xs ih =>
    intro ys h y hy
    cases hx : f x with
    | none =>
      rw [mapOption, hx] at h
      exact absurd h (by simp)
    | some b =>
      cases hrest : mapOption f xs with
      | none =>
        rw [mapOption, hx, obind_some, hrest] at h
        exact absurd h (by simp)
      | some bs =>
        rw [mapOption, hx, obind_some, hrest, obind_some] at h
        injection h with h
        rw [← h] at hy
        rcases List.mem_cons.mp hy with hyb | hyb
        · exact ⟨x, List.mem_cons_self x xs, by rw [hx, hyb]⟩
        · obtain ⟨z, hz, hfz⟩ := ih bs hrest y hyb
          exact ⟨z, List.mem_cons_of_mem x hz, hfz⟩

set_option maxHeartbeats 4000000 in
set_option maxRecDepth 2000 in
/-- The first draw group of the demo batch, evaluated. -/
theorem demo_drawsA :
    genRowDrawsA unitSquare (CRIME_TYPES_AREQUIPA.map Prod.fst) 0 cexOracle 0 =
      some ⟨(1/2, 1/2), "ROBO", "Robo con violencia", 0, 23, 59, "AV"⟩ := by
  with_unfolding_all decide

set_option maxHeartbeats 4000000 in
set_option maxRecDepth 2000 in
/-- The second draw group of the demo batch, evaluated. -/
theorem demo_drawsB :
    genRowDrawsB cexOracle 0 = some ⟨100, 1000, "CALLE", 100, 1, 1, 1⟩ := by
  with_unfolding_all decide

set_option maxHeartbeats 4000000 in
set_option maxRecDepth 2000 in
/-- The demo batch's single record, field by field. -/
theorem demo_genRow :
    genRow unitSquare (CRIME_TYPES_AREQUIPA.map Prod.fst) 0 0 cexOracle 0 =
      some demoRecX := by
  unfold genRow
  rw [demo_drawsA, obind_some, demo_drawsB, obind_some]
  unfold demoRecX
  rw [Option.some.injEq, Record.mk.injEq]
  refine ⟨?_, ?_, ?_, ?_, ?_, ?_, ?_, ?_, ?_, ?_, ?_, ?_, ?_, ?_, ?_, ?_, ?_,
    ?_, ?_, ?_, ?_, ?_⟩ <;> with_unfolding_all decide

set_option maxHeartbeats 4000000 in
set_option maxRecDepth 2000 in
/-- The concrete demo generation run, assembled. -/
theorem demo_generate :
    generate_random_records_in_zone 1 unitSquare none 0 0 cexOracle =
      some [demoRecX] := by
  show mapOption (genRow unitSquare (CRIME_TYPES_AREQUIPA.map Prod.fst) 0 0 cexOracle)
    (List.range 1) = some [demoRecX]
  rw [show List.range 1 = [0] by decide, mapOption, demo_genRow, obind_some]
  rfl

/-- `demoBatch` is that one-record list. -/
theorem demoBatch_eq : demoBatch = [demoRecX] := by
  unfold demoBatch
  rw [demo_generate]
  rfl

/-- `demoRec` is that record. -/
theorem demoRec_eq : demoRec = demoRecX := by
  unfold demoRec
  rw [demoBatch_eq]
  rfl

set_option maxHeartbeats 4000000 in
set_option maxRecDepth 2000 in
/-- With an empty category list the first draw group raises
(`random.choice([])`). -/
theorem demo_drawsA_emptycats :
    genRowDrawsA unitSquare ([] : List String) 30 cexOracle 0 = none := by
  with_unfolding_all decide

set_option maxHeartbeats 4000000 in
set_option maxRecDepth 2000 in
/-- With a negative `days_back` the first draw group raises
(`random.randint(0, -1)`). -/
theorem demo_drawsA_negdays :
    genRowDrawsA unitSquare (CRIME_TYPES_AREQUIPA.map Prod.fst) (-1) cexOracle 0 =
      none := by
  with_unfolding_all decide

/-- C4 counterexample: the generator raises (models as `none`) for the
empty category list (`random.choice([])` is an `IndexError`) and for a
negative `days_back` (`random.randint(0, -1)` is a `ValueError`). -/
theorem generator_raises_on_bad_inputs :
    generate_random_records_in_zone 1 unitSquare (some []) 30 0 cexOracle = none ∧
    generate_random_records_in_zone 1 unitSquare none (-1) 0 cexOracle = none := by
  have hrow1 : genRow unitSquare ([] : List String) 30 0 cexOracle 0 = none := by
    unfold genRow
    rw [demo_drawsA_emptycats]
    rfl
  have hrow2 : genRow unitSquare (CRIME_TYPES_AREQUIPA.map Prod.fst) (-1) 0 cexOracle 0
      = none := by
    unfold genRow
    rw [demo_drawsA_negdays]
    rfl
  constructor
  · show mapOption (genRow unitSquare ([] : List String) 30 0 cexOracle)
      (List.range 1) = none
    rw [show List.range 1 = [0] by decide, mapOption, hrow1]
    rfl
  · show mapOption (genRow unitSquare (CRIME_TYPES_AREQUIPA.map Prod.fst) (-1) 0 cexOracle)
      (List.range 1) = none
    rw [show List.range 1 = [0] by decide, mapOption, hrow2]
    rfl

/-- C4 (amended): for every `n`, polygon, `days_back ≥ 0` and nonempty (or
omitted) category list, the generator succeeds and returns exactly `n`
records. -/
theorem generator_count_exact (n : ℕ) (zone_bounds : List (ℚ × ℚ))
    (crime_types : Option (List String)) (days_back : ℤ) (now : ℤ)
    (o : GenOracle) (hpoly : 3 ≤ zone_bounds.length)
    (hcts : ∀ l, crime_types = some l → l ≠ []) (hdb : 0 ≤ days_back) :
    ∃ rows, generate_random_records_in_zone n zone_bounds crime_types days_back now o
      = some rows ∧ rows.length = n := by
  have hb : ¬ zone_bounds.isEmpty = true := by
    cases zone_bounds with
    | nil => simp at hpoly
    | cons p ps => simp
  have hcts2 : (match crime_types with
      | none => CRIME_TYPES_AREQUIPA.map Prod.fst
      | some l => l) ≠ [] := by
    cases crime_types with
    | none => decide
    | some l => exact hcts l rfl
  obtain ⟨ys, hys, hlen⟩ := mapOption_some_of_forall _ (List.range n)
    (fun i _ => genRow_some now o i hb hcts2 hdb)
  refine ⟨ys, ?_, by rw [hlen, List.length_range]⟩
  simp only [generate_random_records_in_zone]
  exact hys

/-- Witness for `generator_count_exact` at a concrete configuration. -/
theorem generator_count_exact_witness :
    ∃ rows, generate_random_records_in_zone 5 unitSquare none 30 1700000000 cexOracle
      = some rows ∧ rows.length = 5 :=
  generator_count_exact 5 unitSquare none 30 1700000000 cexOracle
    (by decide) (fun l hl => by cases hl) (by decide)

/-- The timestamp draws recorded in a successful first draw group satisfy
the `randint` range contracts. -/
theorem genRowDrawsA_bounds {zone_bounds : List (ℚ × ℚ)} {cts : List String}
    {days_back : ℤ} {o : GenOracle} {i : ℕ} {a : DrawsA}
    (h : genRowDrawsA zone_bounds cts days_back o i = some a) :
    0 ≤ a.daysAgo ∧ a.daysAgo ≤ days_back ∧ 0 ≤ a.hoursAgo ∧ a.hoursAgo ≤ 23 ∧
    0 ≤ a.minutesAgo ∧ a.minutesAgo ≤ 59 := by
  unfold genRowDrawsA at h
  simp only [Option.bind_eq_some] at h
  obtain ⟨pt, hpt, pr, hpr, ds, hds, da, hda, hh, hha, mm, hma, bw, hbw, heq⟩ := h
  injection heq with heq
  rw [← heq]
  obtain ⟨h1, h2⟩ := pyRandint_eq_some hda
  obtain ⟨h3, h4⟩ := pyRandint_eq_some hha
  obtain ⟨h5, h6⟩ := pyRandint_eq_some hma
  exact ⟨h1, h2, h3, h4, h5, h6⟩

/-- The timestamp of a record produced by the loop body lies within
`[now - (days_back days + 23 h 59 min), now]`. -/
theorem genRow_date {zone_bounds : List (ℚ × ℚ)} {cts : List String}
    {days_back now : ℤ} {o : GenOracle} {i : ℕ} {r : Record}
    (h : genRow zone_bounds cts days_back now o i = some r) :
    now - (days_back * 86400 + 86340) ≤ r.date ∧ r.date ≤ now := by
  unfold genRow at h
  simp only [Option.bind_eq_some] at h
  obtain ⟨a, ha, b, hb, heq⟩ := h
  obtain ⟨h1, h2, h3, h4, h5, h6⟩ := genRowDrawsA_bounds ha
  injection heq with heq
  rw [← heq]
  refine ⟨?_, ?_⟩
  · show now - (days_back * 86400 + 86340) ≤
      now - (a.daysAgo * 86400 + a.hoursAgo * 3600 + a.minutesAgo * 60)
    omega
  · show now - (a.daysAgo * 86400 + a.hoursAgo * 3600 + a.minutesAgo * 60) ≤ now
    omega

/-- C6 counterexample: at `days_back = 0` the claimed window is `[now, now]`
(degenerate), yet the generator can date its record 23 h 59 min before
`now` — the hour and minute offsets are drawn on top of the full
`days_back` day offset, so timestamps fall up to a day before the claimed
window start. -/
theorem generator_date_outside_claimed_window :
    (generate_random_records_in_zone 1 unitSquare none 0 0 cexOracle).map
      (List.map Record.date) = some [-86340] ∧
    ¬ ((0 : ℤ) - 0 * 86400 ≤ -86340) := by
  constructor
  · rw [demo_generate]
    rfl
  · decide

/-- C6 (amended): every generated record's timestamp lies within
`[now - (days_back days + 23 h 59 min), now]`, i.e. the window extended
downward by the maximal hour/minute offsets (86340 s). -/
theorem generator_dates_within_extended_window (n : ℕ)
    (zone_bounds : List (ℚ × ℚ)) (crime_types : Option (List String))
    (days_back now : ℤ) (o : GenOracle) (rows : List Record) (r : Record)
    (h : generate_random_records_in_zone n zone_bounds crime_types days_back now o
      = some rows)
    (hr : r ∈ rows) :
    now - (days_back * 86400 + 86340) ≤ r.date ∧ r.date ≤ now := by
  simp only [generate_random_records_in_zone] at h
  obtain ⟨i, _, hrow⟩ := mapOption_mem _ _ _ h r hr
  exact genRow_date hrow

/-- Witness for `generator_dates_within_extended_window` on a concrete
generated batch. -/
theorem generator_dates_witness :
    generate_random_records_in_zone 1 unitSquare none 0 0 cexOracle
      = some demoBatch ∧
    demoRec ∈ demoBatch ∧
    ((0 : ℤ) - (0 * 86400 + 86340) ≤ demoRec.date ∧ demoRec.date ≤ 0) :=
  ⟨by rw [demo_generate, demoBatch_eq],
    by rw [demoRec_eq, demoBatch_eq]; exact List.mem_singleton_self _,
    generator_dates_within_extended_window 1 unitSquare none 0 0 cexOracle
      demoBatch demoRec (by rw [demo_generate, demoBatch_eq])
      (by rw [demoRec_eq, demoBatch_eq]; exact List.mem_singleton_self _)⟩

/-- C5: the hotspot aggregation returns exactly the buckets whose count
strictly exceeds the threshold — a bucket `(k, c)` is returned iff `k` is
an occupied bin, `c` is its exact occupancy count, and `c > threshold`; in
particular a bucket with `c = threshold` is excluded and one with
`c = threshold + 1` is included. -/
theorem hotspots_strict_threshold (pts : List (Option ℚ × Option ℚ))
    (t : ℤ) (k : ℚ × ℚ) (c : ℕ) :
    (k, c) ∈ find_hotspots pts t ↔
      (k ∈ binKeys pts ∧ c = (binKeys pts).count k ∧ (c : ℤ) > t) := by
  unfold find_hotspots
  by_cases hv : validCoords pts = []
  · rw [if_pos hv]
    have hbk : binKeys pts = [] := by
      unfold binKeys
      rw [hv]
      rfl
    simp [hbk]
  · rw [if_neg hv]
    constructor
    · intro hmem
      obtain ⟨a, hadedup, hsome⟩ := List.mem_filterMap.mp hmem
      by_cases ht : ((binKeys pts).count a : ℤ) > t
      · rw [if_pos ht] at hsome
        rw [Option.some.injEq, Prod.mk.injEq] at hsome
        obtain ⟨hak, hc⟩ := hsome
        subst hak
        subst hc
        exact ⟨List.mem_dedup.mp hadedup, rfl, ht⟩
      · rw [if_neg ht] at hsome
        exact absurd hsome (by simp)
    · rintro ⟨hk, hc, ht⟩
      subst hc
      apply List.mem_filterMap.mpr
      refine ⟨k, List.mem_dedup.mpr hk, ?_⟩
      rw [if_pos ht]

/-- The per-record date rewrite of `insert_crimes`, positionally: entry `i`
of the processed batch is entry `i` of the input passed through
`_enforce_recent_date` with its own draws. -/
theorem insert_crimes_enforce_get (now : ℤ) (ems ess : ℕ → ℕ) :
    ∀ (recs : List Record) (j i : ℕ),
    (insert_crimes_enforce now ems ess j recs).get? i =
      (recs.get? i).map (fun r => enforce_recent_date now (ems (j + i)) (ess (j + i)) r) := by
  intro recs
  induction recs with
  | nil => intro j i; cases i <;> rfl
  | cons r rs ih =>
    intro j i
    cases i with
    | zero => simp [insert_crimes_enforce]
    | succ m =>
      simp only [insert_crimes_enforce, List.get?]
      rw [ih (j + 1) m]
      have hidx : j + 1 + m = j + (m + 1) := by omega
      rw [hidx]

/-- C7 (amended): handing a batch to the storage step rewrites, for every
record, exactly the fields `date` (to a time between 1 h and 1 h 59 min
59 s before `now`), `updated_on` (to `now`) and `year` (to the new date's
year); every other field keeps the value the generator produced. -/
theorem insert_crimes_overwrites_only_dates (now : ℤ) (ems ess : ℕ → ℕ)
    (recs : List Record) (i : ℕ) (emr esr : ℕ) (r : Record) :
    (insert_crimes_enforce now ems ess 0 recs).get? i =
      (recs.get? i).map (fun s => enforce_recent_date now (ems i) (ess i) s) ∧
    (now - 7199 ≤ (enforce_recent_date now emr esr r).date ∧
      (enforce_recent_date now emr esr r).date ≤ now - 3600) ∧
    (enforce_recent_date now emr esr r).updated_on = now ∧
    (enforce_recent_date now emr esr r).year =
      yearOf (enforce_recent_date now emr esr r).date ∧
    (enforce_recent_date now emr esr r).id = r.id ∧
    (enforce_recent_date now emr esr r).case_number = r.case_number ∧
    (enforce_recent_date now emr esr r).block = r.block ∧
    (enforce_recent_date now emr esr r).iucr = r.iucr ∧
    (enforce_recent_date now emr esr r).primary_type = r.primary_type ∧
    (enforce_recent_date now emr esr r).description = r.description ∧
    (enforce_recent_date now emr esr r).location_description = r.location_description ∧
    (enforce_recent_date now emr esr r).arrest = r.arrest ∧
    (enforce_recent_date now emr esr r).domestic = r.domestic ∧
    (enforce_recent_date now emr esr r).beat = r.beat ∧
    (enforce_recent_date now emr esr r).district = r.district ∧
    (enforce_recent_date now emr esr r).ward = r.ward ∧
    (enforce_recent_date now emr esr r).community_area = r.community_area ∧
    (enforce_recent_date now emr esr r).fbi_code = r.fbi_code ∧
    (enforce_recent_date now emr esr r).x_coordinate = r.x_coordinate ∧
    (enforce_recent_date now emr esr r).y_coordinate = r.y_coordinate ∧
    (enforce_recent_date now emr esr r).latitude = r.latitude ∧
    (enforce_recent_date now emr esr r).longitude = r.longitude ∧
    (enforce_recent_date now emr esr r).location = r.location := by
  obtain ⟨hm1, hm2⟩ := pyRandintT_mem emr (show (0 : ℤ) ≤ 59 by decide)
  obtain ⟨hs1, hs2⟩ := pyRandintT_mem esr (show (0 : ℤ) ≤ 59 by decide)
  refine ⟨?_, ⟨?_, ?_⟩, rfl, rfl, rfl, rfl, rfl, rfl, rfl, rfl, rfl, rfl, rfl,
    rfl, rfl, rfl, rfl, rfl, rfl, rfl, rfl, rfl, rfl⟩
  · rw [insert_crimes_enforce_get now ems ess recs 0 i]
    simp
  · show now - 7199 ≤
      now - (3600 + pyRandintT 0 59 emr * 60 + pyRandintT 0 59 esr)
    omega
  · show now - (3600 + pyRandintT 0 59 emr * 60 + pyRandintT 0 59 esr) ≤
      now - 3600
    omega

set_option maxHeartbeats 4000000 in
set_option maxRecDepth 2000 in
/-- C7 counterexample: the storage step does not leave the generated
timestamps alone — processing a generated batch through the
`_enforce_recent_date` pass of `insert_crimes` changes its `date` column. -/
theorem insert_crimes_mutates_generated_dates :
    (insert_crimes_enforce 86400 (fun _ => 0) (fun _ => 0) 0 demoBatch).map Record.date ≠
      demoBatch.map Record.date := by
  rw [demoBatch_eq]
  with_unfolding_all decide

/-- C8 counterexample: an incident carrying a latitude but no longitude
does not lack both coordinates, yet the aggregation's dropna filter
removes it — the filter drops every incident missing at least one
coordinate, not only those missing both. -/
theorem filter_drops_single_coordinate_incident :
    validCoords [((some (1 : ℚ)), (none : Option ℚ))] = [] ∧
    ¬ lacksBoth ((some (1 : ℚ)), (none : Option ℚ)) := by
  constructor
  · rfl
  · intro h
    exact absurd h.1 (by simp)

/-- C8 (amended): the aggregation never raises (it is a total function),
keeps exactly the incidents that have both coordinates — equivalently,
filters out exactly those missing at least one — and returns the empty
hotspot set on an empty input or one in which every incident is missing a
coordinate. -/
theorem hotspots_filter_and_empty (pts : List (Option ℚ × Option ℚ)) (t : ℤ) :
    (∀ a b : ℚ, (a, b) ∈ validCoords pts ↔
      ((some a, some b) : Option ℚ × Option ℚ) ∈ pts) ∧
    ((∀ p ∈ pts, p.1 = none ∨ p.2 = none) → find_hotspots pts t = []) := by
  constructor
  · intro a b
    unfold validCoords
    rw [List.mem_filterMap]
    constructor
    · rintro ⟨p, hp, hsome⟩
      obtain ⟨p1, p2⟩ := p
      cases p1 with
      | none => exact absurd hsome (by simp)
      | some x =>
        cases p2 with
        | none => exact absurd hsome (by simp)
        | some y =>
          rw [Option.some.injEq, Prod.mk.injEq] at hsome
          obtain ⟨hx, hy⟩ := hsome
          rw [hx, hy] at hp
          exact hp
    · intro hp
      exact ⟨(some a, some b), hp, rfl⟩
  · intro hmiss
    have hv : validCoords pts = [] := by
      unfold validCoords
      rw [List.filterMap_eq_nil_iff]
      intro p hp
      obtain ⟨p1, p2⟩ := p
      rcases hmiss (p1, p2) hp with h | h
      · have hp1 : p1 = none := h
        rw [hp1]
      · have hp2 : p2 = none := h
        rw [hp2]
        cases p1 <;> rfl
    unfold find_hotspots
    rw [if_pos hv]

/-- Witness for `hotspots_filter_and_empty`: a batch whose only incident
misses its longitude produces no hotspots. -/
theorem hotspots_filter_and_empty_witness :
    find_hotspots [((some (1 : ℚ)), (none : Option ℚ))] 0 = [] :=
  (hotspots_filter_and_empty [((some (1 : ℚ)), (none : Option ℚ))] 0).2
    (by decide)

end ChicagoWeb
